import Mathlib

/-!
Verification of the chatbot-box backend (src/server.js).

The development shallowly embeds the pure content of the program:

* the whitespace cleanup chain `content.replace(/\s+/g, " ").replace(/\n+/g, " ").trim()`
  becomes `cleanText`, built from `collapseRuns` (one regex replacement pass) and a
  JS-style trim (`dropWhile` at the front, `dropTrailWs` at the back);
* a parsed HTML page (after cheerio's removal of script/style/noscript and
  cookie-banner nodes) is abstracted as a `Document`: the list of element texts each
  CSS selector matches, plus the whole-body text;
* `scrapePage` consumes a `FetchResult` describing the outcome of the network fetch
  (network error, HTTP response with ok flag, parse success or parse exception);
* `scrapeWebsite` folds `scrapePage` over the fixed page list, building the corpus
  exactly as the source's `scrapedText` accumulation does, substituting the static
  fallback text when the accumulated text has length below 100;
* the `POST /chat` handler becomes `chatHandler`, returning either an HTTP error,
  an HTTP 200 answer, or the decision to invoke the completion service;
* the handler's catch-block becomes `mapChatError`.
-/

namespace Chatbot

/-- JS regex `\s` character class (also the set removed by `String.prototype.trim`). -/
def isJsWs (c : Char) : Bool :=
  c == ' ' || c == '\t' || c == '\n' || c == '\x0b' || c == '\x0c' || c == '\r' ||
  c == ' ' || c == ' ' ||
  (decide (0x2000 ≤ c.toNat) && decide (c.toNat ≤ 0x200A)) ||
  c == ' ' || c == ' ' || c == ' ' || c == ' ' ||
  c == '　' || c == '﻿'

/-- One global regex replacement pass `replace(/p+/g, r)`: every maximal run of
characters satisfying `p` is replaced by the single character `r`. -/
def collapseRuns (p : Char → Bool) (r : Char) : List Char → List Char
  | [] => []
  | [c] => if p c then [r] else [c]
  | c :: d :: t =>
    if p c then
      (if p d then collapseRuns p r (d :: t) else r :: collapseRuns p r (d :: t))
    else c :: collapseRuns p r (d :: t)

/-- Remove the trailing run of JS whitespace characters. -/
def dropTrailWs : List Char → List Char
  | [] => []
  | c :: rest =>
    match dropTrailWs rest with
    | [] => if isJsWs c then [] else [c]
    | d :: t => c :: d :: t

/-- JS `String.prototype.trim`. -/
def jsTrimStr (s : String) : String :=
  ⟨dropTrailWs (s.data.dropWhile isJsWs)⟩

/-- `content.replace(/\s+/g, " ")` (server.js line 111). -/
def jsCollapseWs (s : String) : String :=
  ⟨collapseRuns isJsWs ' ' s.data⟩

/-- `content.replace(/\n+/g, " ")` (server.js line 112). -/
def jsCollapseNl (s : String) : String :=
  ⟨collapseRuns (fun c => c == '\n') ' ' s.data⟩

/-- The cleanup chain of server.js lines 110-113:
`content.replace(/\s+/g, " ").replace(/\n+/g, " ").trim()`. -/
def cleanText (s : String) : String :=
  jsTrimStr (jsCollapseNl (jsCollapseWs s))

/-- Abstraction of a parsed HTML page after the unwanted-element removal of
server.js line 77: `matches sel` is the list of `.text()` values of the elements
matched by CSS selector `sel`, and `bodyText` is `$("body").text()`. -/
structure Document where
  elemTexts : String → List String
  bodyText : String

/-- The ordered selector list of server.js lines 83-87. -/
def contentSelectors : List String :=
  ["main", "[role=\x22main\x22]", ".main-content", "#main-content",
   ".content", "#content", ".page-content", ".container",
   "article", ".article", "section", ".section"]

/-- The selector scan of server.js lines 89-102: for each selector in order,
append `text + " "` for every matched element whose trimmed text has length
over 100, setting the found flag; stop at the first selector that contributed. -/
def scanLoop (doc : Document) : List String → String → Bool → String × Bool
  | [], content, foundContent => (content, foundContent)
  | sel :: rest, content, foundContent =>
    let step := (doc.elemTexts sel).foldl
      (fun (acc : String × Bool) t =>
        let text := jsTrimStr t
        if 100 < text.length then (acc.1 ++ text ++ " ", true) else acc)
      (content, foundContent)
    if step.2 then step else scanLoop doc rest step.1 step.2

/-- The content extraction of server.js lines 74-119: selector scan, whole-body
fallback when nothing was found or under 200 characters accumulated, then the
whitespace cleanup chain. -/
def extractContent (doc : Document) : String :=
  let cf := scanLoop doc contentSelectors "" false
  let content := if !cf.2 || decide (cf.1.length < 200) then doc.bodyText else cf.1
  cleanText content

/-- Outcome of `fetch(url)` plus parsing, as observed by `scrapePage`:
a thrown network/timeout error, or an HTTP response with its `ok` flag and,
when parsing and extraction do not throw, the parsed document (`none` models an
exception raised inside cheerio parsing/extraction, caught by the same try/catch). -/
inductive FetchResult where
  | netError : FetchResult
  | response : Bool → Option Document → FetchResult

/-- `scrapePage` (server.js lines 58-124): empty string on any failure,
extracted text otherwise. -/
def scrapePage : FetchResult → String
  | FetchResult.netError => ""
  | FetchResult.response ok doc =>
    if !ok then ""
    else
      match doc with
      | none => ""
      | some d => extractContent d

/-- The fixed page list of server.js lines 129-134. -/
def pages : List String :=
  ["https://www.yapcapitalist.com/",
   "https://www.yapcapitalist.com/apply",
   "https://www.yapcapitalist.com/webinar",
   "https://www.yapcapitalist.com/application-form"]

/-- The per-page corpus block appended at server.js line 143:
`"\n\n=== PAGE: " + page + " ===\n" + text`. -/
def pageBlock (page text : String) : String :=
  "\n\n=== PAGE: " ++ page ++ " ===\n" ++ text

/-- The scraping loop of server.js lines 140-147, accumulating `scrapedText` and
`successCount`; `fetch` gives the outcome of `scrapePage`'s network fetch per URL. -/
def scrapeLoop (fetch : String → FetchResult) :
    List String → String → Nat → String × Nat
  | [], scrapedText, successCount => (scrapedText, successCount)
  | page :: rest, scrapedText, successCount =>
    let text := scrapePage (fetch page)
    if 50 < text.length then
      scrapeLoop fetch rest (scrapedText ++ pageBlock page text) (successCount + 1)
    else
      scrapeLoop fetch rest scrapedText successCount

/-- The raw fallback template literal of server.js lines 151-169 (before `.trim()`),
including its two interior trailing spaces and the closing indentation. -/
def fallbackRaw : String :=
  "\n=== YAP CAPITALIST INFORMATION ===\n\nYap Capitalist is a platform focused on helping entrepreneurs and business owners.\n\nKey Services:\n- Business consulting and advisory services\n- Investment opportunities and guidance  \n- Educational webinars and training programs\n- Application process for business opportunities\n\nContact and Applications:\n- Main website: https://www.yapcapitalist.com/\n- Apply for services: https://www.yapcapitalist.com/apply\n- Join webinars: https://www.yapcapitalist.com/webinar\n- Application form: https://www.yapcapitalist.com/application-form\n\nThis platform appears to focus on business growth, investment strategies, and entrepreneurial development.\n        "

/-- The static fallback content substituted at server.js lines 150-170. -/
def fallbackContent : String := jsTrimStr fallbackRaw

/-- `scrapeWebsite` (server.js lines 126-176), returning the text persisted to the
corpus store (`writeFileSync(DATA_FILE, scrapedText)`): the accumulated scraped
text, or the static fallback when that accumulation has length under 100. -/
def scrapeWebsite (fetch : String → FetchResult) : String :=
  let scrapedText := (scrapeLoop fetch pages "" 0).1
  if scrapedText.length < 100 then fallbackContent else scrapedText

/-- The `message` field of a `POST /chat` request body: absent, present but not a
string, or a string. -/
inductive MsgField where
  | missing : MsgField
  | nonString : MsgField
  | str : String → MsgField

/-- Observable outcome of the `/chat` handler before the completion call:
an HTTP error response, an HTTP 200 answer, or the invocation of the completion
service (the Answer Generator) with the corpus and the user message. -/
inductive ChatOutcome where
  | httpError : Nat → String → ChatOutcome
  | httpAnswer : String → ChatOutcome
  | generate : String → String → ChatOutcome
deriving DecidableEq

/-- Placeholder answer when the corpus file does not exist (server.js line 375). -/
def stillLoadingAnswer : String :=
  "I\x27m still loading website information. Please try again in a moment."

/-- Placeholder answer when the corpus is too short (server.js line 385). -/
def notEnoughAnswer : String :=
  "I don\x27t have enough website information loaded. Please try again later or contact support."

/-- The `POST /chat` handler (server.js lines 358-421) up to the completion call:
validation, corpus-existence check, corpus-size check, then the completion call.
`corpus` is `none` when the data file does not exist, `some data` otherwise. -/
def chatHandler (msg : MsgField) (corpus : Option String) : ChatOutcome :=
  match msg with
  | MsgField.missing => ChatOutcome.httpError 400 "Valid message is required"
  | MsgField.nonString => ChatOutcome.httpError 400 "Valid message is required"
  | MsgField.str s =>
    if s.length = 0 then ChatOutcome.httpError 400 "Valid message is required"
    else if 500 < s.length then
      ChatOutcome.httpError 400 "Message too long (max 500 characters)"
    else
      match corpus with
      | none => ChatOutcome.httpAnswer stillLoadingAnswer
      | some siteData =>
        if siteData.length < 100 then ChatOutcome.httpAnswer notEnoughAnswer
        else ChatOutcome.generate siteData s

/-- An error thrown during the completion call: its optional `status` field and
its `message` string. -/
structure UpstreamError where
  status : Option Nat
  message : String

/-- JS `String.prototype.includes` for a non-empty search string. -/
def jsIncludes (s sub : String) : Bool :=
  1 < (s.splitOn sub).length

/-- Body of the 429 response (server.js line 428). -/
def rateLimitError : String := "Too many requests. Please try again in a moment."

/-- Body of the configuration-error response (server.js line 432). -/
def configError : String := "API configuration error. Please contact support."

/-- Body of the generic-error response (server.js line 436). -/
def genericError : String := "I\x27m temporarily unavailable. Please try again."

/-- The catch-block of the `/chat` handler (server.js lines 423-439). -/
def mapChatError (e : UpstreamError) : ChatOutcome :=
  if e.status == some 429 then ChatOutcome.httpError 429 rateLimitError
  else if jsIncludes e.message "API key" then ChatOutcome.httpError 500 configError
  else ChatOutcome.httpError 500 genericError

/-! Claim-side definitions (phrased from the spec, to be compared with the
source-derived functions above). -/

/-- Spec-side validity of a chat message: present, a string, non-empty, and at
most 500 characters long. -/
def validMessage : MsgField → Bool
  | MsgField.str s => decide (0 < s.length) && decide (s.length ≤ 500)
  | _ => false

/-- Whether a handler outcome is an HTTP 400 response. -/
def isBadRequest : ChatOutcome → Bool
  | ChatOutcome.httpError 400 _ => true
  | _ => false

/-- No two consecutive characters of the list satisfy `p`. -/
def noRunB (p : Char → Bool) : List Char → Bool
  | [] => true
  | [_] => true
  | a :: b :: t => !(p a && p b) && noRunB p (b :: t)

/-- Neither the first nor the last character of the list is JS whitespace. -/
def noEdgeWs (l : List Char) : Bool :=
  (match l.head? with
   | none => true
   | some c => !isJsWs c) &&
  (match l.getLast? with
   | none => true
   | some c => !isJsWs c)

/-- Spec-side corpus shape: the concatenation, in page-list order, of one block
per page whose extracted text has length over 50; other pages contribute nothing. -/
def corpusBlocks (fetch : String → FetchResult) : List String → String
  | [] => ""
  | page :: rest =>
    let text := scrapePage (fetch page)
    (if 50 < text.length then pageBlock page text else "") ++ corpusBlocks fetch rest

/-! Concrete inputs used by witnesses and counterexamples. -/

/-- A 200-character letter string. -/
def aStr200 : String := String.mk (List.replicate 200 'a')

/-- A document with no selector matches and the given body text. -/
def docPlain (s : String) : Document := ⟨fun _ => [], s⟩

/-- A fetch oracle where only the first configured page succeeds, yielding a
200-character body. -/
def oracleOnePage : String → FetchResult := fun page =>
  if page == "https://www.yapcapitalist.com/" then
    FetchResult.response true (some (docPlain aStr200))
  else FetchResult.netError

/-- A corpus of exactly 100 characters. -/
def corpus100 : String := String.mk (List.replicate 100 'a')

/-- A message of exactly 501 characters. -/
def msg501 : String := String.mk (List.replicate 501 'a')

/-- The sub-threshold corpus of the spec's scenario (36 characters). -/
def scenarioCorpus : String := "=== PAGE: https://x/ ===\nHello world"

end Chatbot

namespace Chatbot

set_option maxRecDepth 100000

/-! Helper lemmas about the whitespace machinery. -/

/-- Two-step structural induction on character lists. -/
theorem twoStepInduction {motive : List Char → Prop} (h0 : motive [])
    (h1 : ∀ c, motive [c])
    (h2 : ∀ c d t, motive (d :: t) → motive (c :: d :: t)) :
    ∀ l, motive l
  | [] => h0
  | [c] => h1 c
  | c :: d :: t => h2 c d t (twoStepInduction h0 h1 h2 (d :: t))

theorem noRunB_tail (p : Char → Bool) (c : Char) (l : List Char)
    (h : noRunB p (c :: l) = true) : noRunB p l = true := by
  cases l with
  | nil => rfl
  | cons d t =>
    simp only [noRunB, Bool.and_eq_true] at h
    exact h.2

theorem collapseRuns_cons_head (p : Char → Bool) (r d : Char) (t : List Char)
    (hd : p d = false) : ∃ u, collapseRuns p r (d :: t) = d :: u := by
  cases t with
  | nil => exact ⟨[], by simp [collapseRuns, hd]⟩
  | cons e u => exact ⟨collapseRuns p r (e :: u), by simp [collapseRuns, hd]⟩

theorem collapseRuns_noRun (p : Char → Bool) (r : Char) :
    ∀ l, noRunB p (collapseRuns p r l) = true := by
  intro l
  induction l using twoStepInduction with
  | h0 => rfl
  | h1 c => cases h : p c <;> simp [collapseRuns, h, noRunB]
  | h2 c d t ih =>
    cases hc : p c with
    | true =>
      cases hd : p d with
      | true => simpa [collapseRuns, hc, hd] using ih
      | false =>
        obtain ⟨u, hu⟩ := collapseRuns_cons_head p r d t hd
        have hstep : collapseRuns p r (c :: d :: t) = r :: collapseRuns p r (d :: t) := by
          simp [collapseRuns, hc, hd]
        rw [hstep, hu]
        rw [hu] at ih
        simp only [noRunB, Bool.and_eq_true]
        exact ⟨by simp [hd], ih⟩
    | false =>
      have hstep : collapseRuns p r (c :: d :: t) = c :: collapseRuns p r (d :: t) := by
        simp [collapseRuns, hc]
      rw [hstep]
      cases hout : collapseRuns p r (d :: t) with
      | nil => simp [noRunB]
      | cons e u =>
        rw [hout] at ih
        simp only [noRunB, Bool.and_eq_true]
        exact ⟨by simp [hc], ih⟩

theorem collapseRuns_mem (p : Char → Bool) (r : Char) :
    ∀ l, ∀ c ∈ collapseRuns p r l, c = r ∨ p c = false := by
  intro l
  induction l using twoStepInduction with
  | h0 => intro c hc; simp [collapseRuns] at hc
  | h1 a =>
    intro c hc
    cases ha : p a with
    | true =>
      simp [collapseRuns, ha] at hc
      exact Or.inl hc
    | false =>
      simp [collapseRuns, ha] at hc
      exact Or.inr (hc ▸ ha)
  | h2 a b t ih =>
    intro c hc
    cases ha : p a with
    | true =>
      cases hb : p b with
      | true =>
        rw [show collapseRuns p r (a :: b :: t) = collapseRuns p r (b :: t) from by
          simp [collapseRuns, ha, hb]] at hc
        exact ih c hc
      | false =>
        rw [show collapseRuns p r (a :: b :: t) = r :: collapseRuns p r (b :: t) from by
          simp [collapseRuns, ha, hb]] at hc
        rcases List.mem_cons.mp hc with h | h
        · exact Or.inl h
        · exact ih c h
    | false =>
      rw [show collapseRuns p r (a :: b :: t) = a :: collapseRuns p r (b :: t) from by
        simp [collapseRuns, ha]] at hc
      rcases List.mem_cons.mp hc with h | h
      · exact Or.inr (h ▸ ha)
      · exact ih c h

theorem collapseRuns_id (p : Char → Bool) (r : Char) :
    ∀ l, (∀ c ∈ l, p c = false) → collapseRuns p r l = l := by
  intro l
  induction l using twoStepInduction with
  | h0 => intro _; rfl
  | h1 a => intro h; simp [collapseRuns, h a (by simp)]
  | h2 a b t ih =>
    intro h
    have ha : p a = false := h a (by simp)
    simp only [collapseRuns, ha, Bool.false_eq_true, if_false, List.cons.injEq, true_and]
    exact ih (fun c hc => h c (List.mem_cons_of_mem a hc))

theorem dropWhile_noRun (p q : Char → Bool) :
    ∀ l, noRunB p l = true → noRunB p (l.dropWhile q) = true := by
  intro l
  induction l with
  | nil => intro h; exact h
  | cons c t ih =>
    intro h
    cases hq : q c with
    | true =>
      simp only [List.dropWhile, hq]
      exact ih (noRunB_tail p c t h)
    | false =>
      simp only [List.dropWhile, hq]
      exact h

theorem dropWhile_head (q : Char → Bool) :
    ∀ (l : List Char) (c : Char), (l.dropWhile q).head? = some c → q c = false := by
  intro l
  induction l with
  | nil => intro c h; simp at h
  | cons a t ih =>
    intro c h
    cases hq : q a with
    | true =>
      simp only [List.dropWhile, hq] at h
      exact ih c h
    | false =>
      simp only [List.dropWhile, hq, List.head?_cons, Option.some.injEq] at h
      exact h ▸ hq

theorem dropTrail_head :
    ∀ (l : List Char) (c : Char), (dropTrailWs l).head? = some c → l.head? = some c := by
  intro l c h
  cases l with
  | nil => simp [dropTrailWs] at h
  | cons a t =>
    cases hd : dropTrailWs t with
    | nil =>
      cases hw : isJsWs a with
      | true => simp [dropTrailWs, hd, hw] at h
      | false =>
        simp only [dropTrailWs, hd, hw, Bool.false_eq_true, if_false,
          List.head?_cons, Option.some.injEq] at h
        simp [h]
    | cons d u =>
      simp only [dropTrailWs, hd, List.head?_cons, Option.some.injEq] at h
      simp [h]

theorem dropTrail_getLast :
    ∀ (l : List Char) (c : Char), (dropTrailWs l).getLast? = some c → isJsWs c = false := by
  intro l
  induction l with
  | nil => intro c h; simp [dropTrailWs] at h
  | cons a t ih =>
    intro c h
    cases hd : dropTrailWs t with
    | nil =>
      cases hw : isJsWs a with
      | true => simp [dropTrailWs, hd, hw] at h
      | false =>
        simp only [dropTrailWs, hd, hw, Bool.false_eq_true, if_false,
          List.getLast?_singleton, Option.some.injEq] at h
        exact h ▸ hw
    | cons d u =>
      have hstep : dropTrailWs (a :: t) = a :: d :: u := by simp [dropTrailWs, hd]
      rw [hstep, List.getLast?_cons_cons, ← hd] at h
      exact ih c h

theorem dropTrail_noRun (p : Char → Bool) :
    ∀ l, noRunB p l = true → noRunB p (dropTrailWs l) = true := by
  intro l
  induction l with
  | nil => intro h; exact h
  | cons a t ih =>
    intro h
    cases hd : dropTrailWs t with
    | nil =>
      cases hw : isJsWs a with
      | true => simp [dropTrailWs, hd, hw, noRunB]
      | false => simp [dropTrailWs, hd, hw, noRunB]
    | cons d u =>
      have hstep : dropTrailWs (a :: t) = a :: d :: u := by simp [dropTrailWs, hd]
      rw [hstep]
      have hht : t.head? = some d := dropTrail_head t d (by rw [hd]; rfl)
      cases t with
      | nil => simp at hht
      | cons b t2 =>
        have hbd : b = d := by simpa using hht
        subst hbd
        simp only [noRunB, Bool.and_eq_true] at h
        have hrec : noRunB p (dropTrailWs (b :: t2)) = true := ih h.2
        rw [hd] at hrec
        simp only [noRunB, Bool.and_eq_true]
        exact ⟨h.1, hrec⟩

theorem cleanText_data (s : String) :
    (cleanText s).data =
      dropTrailWs ((collapseRuns (fun c => c == '\n') ' '
        (collapseRuns isJsWs ' ' s.data)).dropWhile isJsWs) := rfl

theorem nl_pass_id (l : List Char) :
    collapseRuns (fun c => c == '\n') ' ' (collapseRuns isJsWs ' ' l) =
      collapseRuns isJsWs ' ' l := by
  apply collapseRuns_id
  intro c hc
  rcases collapseRuns_mem isJsWs ' ' l c hc with h | h
  · subst h; decide
  · cases hb : c == '\n' with
    | false => rfl
    | true =>
      have hc' : c = '\n' := beq_iff_eq.mp hb
      rw [hc'] at h
      exact absurd h (by decide)

theorem cleanText_noRun (s : String) : noRunB isJsWs (cleanText s).data = true := by
  rw [cleanText_data, nl_pass_id]
  exact dropTrail_noRun isJsWs _
    (dropWhile_noRun isJsWs isJsWs _ (collapseRuns_noRun isJsWs ' ' s.data))

theorem cleanText_noEdge (s : String) : noEdgeWs (cleanText s).data = true := by
  rw [noEdgeWs, cleanText_data, nl_pass_id]
  rw [Bool.and_eq_true]
  constructor
  · cases hh : (dropTrailWs ((collapseRuns isJsWs ' ' s.data).dropWhile isJsWs)).head? with
    | none => rfl
    | some c =>
      have h1 := dropTrail_head _ c hh
      have h2 := dropWhile_head isJsWs _ c h1
      simp [h2]
  · cases hl : (dropTrailWs ((collapseRuns isJsWs ' ' s.data).dropWhile isJsWs)).getLast? with
    | none => rfl
    | some c =>
      have h1 := dropTrail_getLast _ c hl
      simp [h1]

end Chatbot

namespace Chatbot

set_option maxRecDepth 100000

theorem scrapeLoop_eq (fetch : String → FetchResult) :
    ∀ (ps : List String) (acc : String) (n : Nat),
      (scrapeLoop fetch ps acc n).1 = acc ++ corpusBlocks fetch ps := by
  intro ps
  induction ps with
  | nil => intro acc n; simp [scrapeLoop, corpusBlocks]
  | cons p ps ih =>
    intro acc n
    by_cases h : 50 < (scrapePage (fetch p)).length
    · simp [scrapeLoop, corpusBlocks, h, ih, String.append_assoc]
    · simp [scrapeLoop, corpusBlocks, h, ih]

/-- Claim C1, as stated: for every combination of per-page fetch/extraction
outcomes, the persisted corpus length would be at least the fallback content
length. This is false: when exactly one page yields 200 characters of text the
persisted scraped corpus has 247 characters while the fallback has 675. -/
theorem claim_C1_counterexample :
    ¬ fallbackContent.length ≤ (scrapeWebsite oracleOnePage).length := by decide

/-- Claim C1, amended: for every combination of per-page fetch/extraction
outcomes, the persisted corpus has length at least 100 (the minimum usable
size), so the persisted corpus is never left empty. -/
theorem claim_C1_amended (fetch : String → FetchResult) :
    100 ≤ (scrapeWebsite fetch).length ∧ scrapeWebsite fetch ≠ "" := by
  have hmain : 100 ≤ (scrapeWebsite fetch).length := by
    unfold scrapeWebsite
    by_cases h : (scrapeLoop fetch pages "" 0).1.length < 100
    · simp only [h, if_true]
      decide
    · simp only [h, if_false]
      omega
  refine ⟨hmain, fun hempty => ?_⟩
  rw [hempty] at hmain
  exact absurd hmain (by decide)

/-- Claim C2, as stated: every corpus whose length does not exceed 100 would be
treated as absent by the chat handler. This is false at length exactly 100: the
handler's check is `siteData.length < 100`, so a 100-character corpus reaches
the Answer Generator. -/
theorem claim_C2_counterexample :
    corpus100.length ≤ 100 ∧
      chatHandler (MsgField.str "hi") (some corpus100) =
        ChatOutcome.generate corpus100 "hi" := by
  exact ⟨by decide, by decide⟩

/-- Claim C2, amended: for every stored corpus whose length is strictly below
100, a `POST /chat` request with a valid message returns HTTP 200 with the
not-enough-website-information placeholder and never invokes the
Answer Generator. -/
theorem claim_C2_amended (data s : String) (h1 : 0 < s.length)
    (h2 : s.length ≤ 500) (h3 : data.length < 100) :
    chatHandler (MsgField.str s) (some data) = ChatOutcome.httpAnswer notEnoughAnswer := by
  have h0 : ¬ s.length = 0 := by omega
  have h5 : ¬ 500 < s.length := by omega
  simp [chatHandler, h0, h5, h3]

/-- Witness for the amended claim C2 at the spec's scenario: the 36-character
corpus with message "hi" yields the placeholder answer. -/
theorem claim_C2_witness :
    chatHandler (MsgField.str "hi") (some scenarioCorpus) =
      ChatOutcome.httpAnswer notEnoughAnswer :=
  claim_C2_amended scenarioCorpus "hi" (by decide) (by decide) (by decide)

/-- Claim C4: every failure thrown during `/chat` processing maps to a
structured JSON error response: status 429 yields HTTP 429 with the retryable
message; otherwise a message mentioning "API key" yields HTTP 500 with the
configuration message; every other error yields HTTP 500 with the generic
message. The mapping is total, so no raw exception reaches the caller. -/
theorem claim_C4 (e : UpstreamError) :
    (mapChatError e = ChatOutcome.httpError 429 rateLimitError ∨
     mapChatError e = ChatOutcome.httpError 500 configError ∨
     mapChatError e = ChatOutcome.httpError 500 genericError) ∧
    (e.status = some 429 → mapChatError e = ChatOutcome.httpError 429 rateLimitError) ∧
    (e.status ≠ some 429 → jsIncludes e.message "API key" = true →
      mapChatError e = ChatOutcome.httpError 500 configError) ∧
    (e.status ≠ some 429 → jsIncludes e.message "API key" = false →
      mapChatError e = ChatOutcome.httpError 500 genericError) := by
  unfold mapChatError
  by_cases h : e.status = some 429
  · simp [h]
  · have hb : (e.status == some 429) = false := by
      simp [h]
    cases hj : jsIncludes e.message "API key" with
    | true => simp [hb, hj, h]
    | false => simp [hb, hj, h]

/-- Witness for claim C4: an error carrying status 429 maps to HTTP 429 with
the retryable message. -/
theorem claim_C4_witness :
    mapChatError ⟨some 429, "boom"⟩ = ChatOutcome.httpError 429 rateLimitError :=
  (claim_C4 ⟨some 429, "boom"⟩).2.1 rfl

/-- Claim C5: `POST /chat` responds HTTP 400 exactly when the message is
missing, not a string, empty, or longer than 500 characters; the rejection does
not depend on the corpus (it happens before the corpus is read). -/
theorem claim_C5 (msg : MsgField) :
    (∀ corpus, isBadRequest (chatHandler msg corpus) = !validMessage msg) ∧
    (validMessage msg = false →
      ∀ c₁ c₂ : Option String, chatHandler msg c₁ = chatHandler msg c₂) := by
  cases msg with
  | missing => exact ⟨fun _ => rfl, fun _ _ _ => rfl⟩
  | nonString => exact ⟨fun _ => rfl, fun _ _ _ => rfl⟩
  | str s =>
    by_cases h0 : s.length = 0
    · constructor
      · intro corpus; simp [chatHandler, validMessage, isBadRequest, h0]
      · intro _ c₁ c₂; simp [chatHandler, h0]
    · by_cases h5 : 500 < s.length
      · constructor
        · intro corpus; simp [chatHandler, validMessage, isBadRequest, h0, h5]
        · intro _ c₁ c₂; simp [chatHandler, h0, h5]
      · constructor
        · intro corpus
          have hv : validMessage (MsgField.str s) = true := by
            simp only [validMessage, Bool.and_eq_true, decide_eq_true_eq]
            omega
          rw [hv, Bool.not_true]
          cases corpus with
          | none => simp [chatHandler, h0, h5, isBadRequest]
          | some d =>
            by_cases hd : d.length < 100
            · simp [chatHandler, h0, h5, hd, isBadRequest]
            · simp [chatHandler, h0, h5, hd, isBadRequest]
        · intro hv
          have hv' : validMessage (MsgField.str s) = true := by
            simp only [validMessage, Bool.and_eq_true, decide_eq_true_eq]
            omega
          rw [hv'] at hv
          exact Bool.noConfusion hv

/-- Witness for claim C5: a 501-character message is rejected identically
whatever the corpus state. -/
theorem claim_C5_witness :
    chatHandler (MsgField.str msg501) (some "abc") =
      chatHandler (MsgField.str msg501) none :=
  (claim_C5 (MsgField.str msg501)).2 (by decide) (some "abc") none

/-- Claim C6: a `POST /chat` request with a valid message while the corpus file
does not exist yields HTTP 200 with the "still loading" placeholder answer. -/
theorem claim_C6 (s : String) (h1 : 0 < s.length) (h2 : s.length ≤ 500) :
    chatHandler (MsgField.str s) none = ChatOutcome.httpAnswer stillLoadingAnswer := by
  have h0 : ¬ s.length = 0 := by omega
  have h5 : ¬ 500 < s.length := by omega
  simp [chatHandler, h0, h5]

/-- Witness for claim C6 at the message "hi". -/
theorem claim_C6_witness :
    chatHandler (MsgField.str "hi") none = ChatOutcome.httpAnswer stillLoadingAnswer :=
  claim_C6 "hi" (by decide) (by decide)

/-- Claim C7: whenever the page fetch returns a non-success status, or the
fetch, parse or extraction throws, `scrapePage` returns the empty string; as a
total function it never throws to its caller. -/
theorem claim_C7 :
    scrapePage FetchResult.netError = "" ∧
    (∀ d, scrapePage (FetchResult.response false d) = "") ∧
    (∀ ok, scrapePage (FetchResult.response ok none) = "") := by
  refine ⟨rfl, fun d => rfl, fun ok => ?_⟩
  cases ok <;> rfl

/-- Claim C8: for every HTML input, the extractor's cleaned output contains no
run of two or more consecutive whitespace characters and no leading or trailing
whitespace. -/
theorem claim_C8 (doc : Document) :
    noRunB isJsWs (extractContent doc).data = true ∧
    noEdgeWs (extractContent doc).data = true :=
  ⟨cleanText_noRun _, cleanText_noEdge _⟩

/-- Claim C9: if no content-region selector contributed qualifying text, or the
selector-accumulated content is under 200 characters, the extractor's output
equals the whitespace-normalized text of the whole document body. -/
theorem claim_C9 (doc : Document)
    (h : (scanLoop doc contentSelectors "" false).2 = false ∨
         (scanLoop doc contentSelectors "" false).1.length < 200) :
    extractContent doc = cleanText doc.bodyText := by
  unfold extractContent
  rcases h with h | h
  · simp [h]
  · simp [h]

/-- Witness for claim C9 at a document with no selector matches. -/
theorem claim_C9_witness :
    extractContent (docPlain "hello world") = cleanText "hello world" :=
  claim_C9 (docPlain "hello world") (Or.inl rfl)

/-- Claim C10: whenever the builder persists scraped (non-fallback) content,
the corpus is exactly the concatenation, in page-list order, of one block per
page whose extracted text exceeds 50 characters, each block being the page
marker line followed by the page's extracted text. -/
theorem claim_C10 (fetch : String → FetchResult)
    (h : 100 ≤ (scrapeLoop fetch pages "" 0).1.length) :
    scrapeWebsite fetch = corpusBlocks fetch pages := by
  unfold scrapeWebsite
  have hc : ¬ (scrapeLoop fetch pages "" 0).1.length < 100 := by omega
  simp only [hc, if_false]
  rw [scrapeLoop_eq]
  simp

/-- Witness for claim C10: with one successful 200-character page the scraped
corpus reaches the 100-character bar and equals its block concatenation. -/
theorem claim_C10_witness :
    100 ≤ (scrapeLoop oracleOnePage pages "" 0).1.length ∧
      scrapeWebsite oracleOnePage = corpusBlocks oracleOnePage pages :=
  ⟨by decide, claim_C10 oracleOnePage (by decide)⟩

end Chatbot
